import Mathlib

/-!
A shallow embedding of `click2label.py` (class `ClickLabel` and its inner
class `SingleImage`), together with theorems settling the behavioural
claims about it.

Modelling conventions:
* A CSV file already read from disk is a `RawCSV`: a header row and data
  rows of strings.  `pandas.read_csv(..., index_col='filename')` and the
  subsequent column accesses succeed exactly when the header contains the
  required column names; the bare `except:` in `result_table` is modelled
  as the single failure case "a required column is missing".
* A `pandas.DataFrame` holding results is a `DF`: the index column name,
  the remaining column names (schema), and the rows.  Only the three
  tracked columns `filename`, `label`, `timestamp` carry values in the
  model; no claim inspects the values of any other column.
* `str(dt.now())[:-7]` (the current wall-clock time) is an explicit
  `now : String` argument threaded into every operation that reads it.
* matplotlib `Axes` objects are opaque identities; they are modelled as
  `Nat` tags (`ax`).  `event.inaxes` is `Option Nat` (`none` = the click
  landed outside every subplot).
* Python string comparison (used by `np.sort` and by the pandas sort on
  the `timestamp` column) is lexicographic on Unicode code points; it is
  modelled by `charListLe` on `String.data`.  The pandas multi-key sort
  is order-isomorphic to `sortLe rowLe` below; tie order among equal
  keys is not pinned down by any claim.
-/

namespace Click2Label

/-! ### Lexicographic string order (Python `<=` on `str`, code points) -/

def charListLe : List Char → List Char → Bool
  | [], _ => true
  | _ :: _, [] => false
  | a :: as, b :: bs =>
    if a.toNat < b.toNat then true
    else if b.toNat < a.toNat then false
    else charListLe as bs

def strLe (a b : String) : Bool := charListLe a.data b.data

theorem charListLe_total : ∀ as bs, (charListLe as bs || charListLe bs as) = true := by
  intro as
  induction as with
  | nil => intro bs; simp [charListLe]
  | cons a as ih =>
    intro bs
    cases bs with
    | nil => simp [charListLe]
    | cons b bs =>
      simp only [charListLe]
      rcases Nat.lt_trichotomy a.toNat b.toNat with h | h | h
      · simp [h, Nat.not_lt.mpr (Nat.le_of_lt h)]
      · simp [h, Nat.lt_irrefl, ih bs]
      · simp [h, Nat.not_lt.mpr (Nat.le_of_lt h)]

theorem charListLe_trans :
    ∀ as bs cs, charListLe as bs = true → charListLe bs cs = true →
      charListLe as cs = true := by
  intro as
  induction as with
  | nil => intro bs cs _ _; simp [charListLe]
  | cons a as ih =>
    intro bs cs h1 h2
    cases bs with
    | nil => simp [charListLe] at h1
    | cons b bs =>
      cases cs with
      | nil => simp [charListLe] at h2
      | cons c cs =>
        simp only [charListLe] at h1 h2 ⊢
        rcases Nat.lt_trichotomy a.toNat b.toNat with hab | hab | hab
        · rcases Nat.lt_trichotomy b.toNat c.toNat with hbc | hbc | hbc
          · simp [Nat.lt_trans hab hbc]
          · simp [hbc ▸ hab]
          · simp [hbc, Nat.not_lt.mpr (Nat.le_of_lt hbc)] at h2
        · rcases Nat.lt_trichotomy b.toNat c.toNat with hbc | hbc | hbc
          · simp [hab ▸ hbc]
          · have hac : a.toNat = c.toNat := hab.trans hbc
            simp [hab, Nat.lt_irrefl] at h1
            simp [hbc, Nat.lt_irrefl] at h2
            simp [hac, Nat.lt_irrefl, ih bs cs h1 h2]
          · simp [hbc, Nat.not_lt.mpr (Nat.le_of_lt hbc)] at h2
        · simp [hab, Nat.not_lt.mpr (Nat.le_of_lt hab)] at h1

theorem strLe_total (a b : String) : (strLe a b || strLe b a) = true :=
  charListLe_total a.data b.data

theorem strLe_trans {a b c : String} (h1 : strLe a b = true) (h2 : strLe b c = true) :
    strLe a c = true :=
  charListLe_trans a.data b.data c.data h1 h2

/-! ### A sort on lists by a boolean comparison (models `np.sort` and the
pandas `sort_values` used by the program; a simple insertion sort) -/

def insertLe {α : Type} (le : α → α → Bool) (x : α) : List α → List α
  | [] => [x]
  | y :: ys => if le x y then x :: y :: ys else y :: insertLe le x ys

def sortLe {α : Type} (le : α → α → Bool) : List α → List α
  | [] => []
  | x :: xs => insertLe le x (sortLe le xs)

theorem insertLe_perm {α : Type} (le : α → α → Bool) (x : α) (l : List α) :
    List.Perm (insertLe le x l) (x :: l) := by
  induction l with
  | nil => simp [insertLe]
  | cons y ys ih =>
    simp only [insertLe]
    split
    · exact List.Perm.refl _
    · exact (List.Perm.cons y ih).trans (List.Perm.swap x y ys)

theorem sortLe_perm {α : Type} (le : α → α → Bool) (l : List α) :
    List.Perm (sortLe le l) l := by
  induction l with
  | nil => exact List.Perm.refl _
  | cons x xs ih => exact (insertLe_perm le x (sortLe le xs)).trans (List.Perm.cons x ih)

theorem mem_insertLe {α : Type} (le : α → α → Bool) (x : α) (l : List α) (a : α) :
    a ∈ insertLe le x l ↔ a = x ∨ a ∈ l := by
  rw [(insertLe_perm le x l).mem_iff]
  simp

theorem insertLe_pairwise {α : Type} {le : α → α → Bool}
    (htot : ∀ a b, (le a b || le b a) = true)
    (htrans : ∀ a b c, le a b = true → le b c = true → le a c = true)
    (x : α) (l : List α) (h : List.Pairwise (fun a b => le a b = true) l) :
    List.Pairwise (fun a b => le a b = true) (insertLe le x l) := by
  induction l with
  | nil => simp [insertLe]
  | cons y ys ih =>
    simp only [insertLe]
    rcases h with - | ⟨hy, hys⟩
    split
    · rename_i hxy
      refine List.Pairwise.cons ?_ (List.Pairwise.cons hy hys)
      intro a ha
      rcases List.mem_cons.mp ha with rfl | ha
      · exact hxy
      · exact htrans x y a hxy (hy a ha)
    · rename_i hxy
      have hyx : le y x = true := by
        have := htot x y
        simp [Bool.eq_false_iff.mpr hxy] at this
        exact this
      refine List.Pairwise.cons ?_ (ih hys)
      intro a ha
      rcases (mem_insertLe le x ys a).mp ha with rfl | ha
      · exact hyx
      · exact hy a ha

theorem sortLe_pairwise {α : Type} {le : α → α → Bool}
    (htot : ∀ a b, (le a b || le b a) = true)
    (htrans : ∀ a b c, le a b = true → le b c = true → le a c = true)
    (l : List α) :
    List.Pairwise (fun a b => le a b = true) (sortLe le l) := by
  induction l with
  | nil => simp [sortLe]
  | cons x xs ih => exact insertLe_pairwise htot htrans x (sortLe le xs) ih

/-! ### Data model -/

/-- One result record: the three tracked columns of the result table. -/
structure Row where
  filename : String
  label : String
  timestamp : String
  deriving DecidableEq

/-- A CSV file as read from disk: header row and data rows. -/
structure RawCSV where
  header : List String
  rows : List (List String)
  deriving DecidableEq

/-- A pandas DataFrame holding results: index column name, the remaining
column names (schema), and the rows (values of the three tracked columns). -/
structure DF where
  index : String
  cols : List String
  rows : List Row
  deriving DecidableEq

/-- The derived `done` column: `df['done'] = df['label'] != 'None'`. -/
def rowDone (r : Row) : Bool := r.label != "None"

/-- Comparison used by `df.sort_values(['done', 'timestamp'])`:
lexicographic on (done ascending with False < True, timestamp ascending). -/
def rowLe (a b : Row) : Bool :=
  (!rowDone a && rowDone b) || ((rowDone a == rowDone b) && strLe a.timestamp b.timestamp)

def sortRows : List Row → List Row := sortLe rowLe

def sortStrs : List String → List String := sortLe strLe

/-- Extract the value of column `name` from a data row, given the header. -/
def getCell (header row : List String) (name : String) : String :=
  match header.findIdx? (fun c => c = name) with
  | some i => row.getD i ""
  | none => ""

def parseRow (header : List String) (row : List String) : Row :=
  ⟨getCell header row "filename", getCell header row "label", getCell header row "timestamp"⟩

/-- Serialization of one DataFrame row by `to_csv` (index first, then the
two value columns). -/
def serializeRow (r : Row) : List String := [r.filename, r.label, r.timestamp]

/-- `self.result.to_csv(self.result_path)`: full overwrite of the file with
the index column followed by the value columns. -/
def toCSV (df : DF) : RawCSV :=
  ⟨df.index :: df.cols, df.rows.map serializeRow⟩

/-- The error message of `ClickLabel.result_table`. -/
def resultTableErrMsg : String :=
  "The file that result_path points to must be a CSV containing columns named filename, label and timestamp"

/-- `ClickLabel.result_table`.  The argument is the content of the file at
`result_path` (`none` when `os.path.exists` is false).  Reading requires the
`filename` column (the `read_csv` index), computing `done` requires `label`,
and sorting requires `timestamp`; the bare `except:` turns any of these
failures into the `ValueError`.  On success the derived `done` column is
dropped again, so the schema is the header minus `filename` minus `done`. -/
def result_table (file : Option RawCSV) : Except String DF :=
  match file with
  | some csv =>
    if csv.header.contains "filename" && csv.header.contains "label"
        && csv.header.contains "timestamp" then
      Except.ok
        ⟨"filename",
         (csv.header.filter (fun c => c ≠ "filename")).filter (fun c => c ≠ "done"),
         sortRows (csv.rows.map (parseRow csv.header))⟩
    else
      Except.error resultTableErrMsg
  | none => Except.ok ⟨"filename", ["label", "timestamp"], []⟩

/-- `list(self.result.index)`: the filenames keying the result table. -/
def tableKeys (df : DF) : List String := df.rows.map (fun r => r.filename)

/-- `if path[-1] != '/': path += '/'`.  (On the empty string the source
would raise IndexError; no claim exercises that input.) -/
def normalizeDir (path : String) : String :=
  match path.data.getLast? with
  | some c => if c = '/' then path else path ++ "/"
  | none => path

/-- `ClickLabel.get_image_paths`.  `listing` is `os.listdir(path)`. -/
def get_image_paths (result : DF) (path : String) (listing : List String) : List String :=
  let path := normalizeDir path
  let labelled := tableKeys result
  let unlabelled := (listing.map (fun f => path ++ f)).filter (fun p => !labelled.contains p)
  sortStrs unlabelled ++ labelled

/-! ### Tiles (`ClickLabel.SingleImage`) and click events -/

/-- The state of one grid cell (`ClickLabel.SingleImage`): display-only
attributes (the loaded bitmap, title, caption, overlay) are not modelled. -/
structure SingleImage where
  path : String
  label : String
  timestamp : String
  ax : Nat
  deriving DecidableEq

/-- The state-relevant part of `SingleImage.update`: store the label, and
the timestamp where the string `'None'` means "use the current time". -/
def SingleImage.update (t : SingleImage) (label timestamp now : String) : SingleImage :=
  { t with label := label, timestamp := if timestamp = "None" then now else timestamp }

/-- `SingleImage.__init__`: take label/timestamp from the result table when
the path is a key there, else defaults `label='None'`, `timestamp='None'`. -/
def mkSingleImage (result : DF) (now : String) (ax : Nat) (path : String) : SingleImage :=
  match result.rows.find? (fun r => r.filename == path) with
  | some r => SingleImage.update ⟨path, "None", "None", ax⟩ r.label r.timestamp now
  | none => SingleImage.update ⟨path, "None", "None", ax⟩ "None" "None" now

/-- A matplotlib `button_press_event`: button number and the subplot the
click landed in (`none` = outside every subplot). -/
structure Event where
  button : Nat
  inaxes : Option Nat
  deriving DecidableEq

/-- `dict([(a, b) for a, b in zip([1, 3], label_options)])`. -/
def click_map (label_options : List String) : List (Nat × String) :=
  List.zip [1, 3] label_options

def mapLookup (m : List (Nat × String)) (k : Nat) : Option String :=
  (m.find? (fun p => p.1 == k)).map (fun p => p.2)

/-- `ClickLabel.onclick` restricted to its effect on the tiles: for a
recognized button, every tile whose axes the click landed in is updated
with the toggled label and the current time; otherwise nothing changes. -/
def onclickImages (label_options : List String) (now : String) (e : Event)
    (images : List SingleImage) : List SingleImage :=
  match mapLookup (click_map label_options) e.button with
  | some bound =>
    images.map (fun img =>
      if e.inaxes = some img.ax then
        img.update (if bound = img.label then "None" else bound) now now
      else img)
  | none => images

/-! ### Session state and `labelling_grid` -/

/-- The mutable state of a `ClickLabel` instance together with the file at
`result_path` (`disk`). -/
structure SessionState where
  result : DF
  disk : Option RawCSV
  image_paths : List String
  images : List SingleImage
  deriving DecidableEq

/-- `ClickLabel.onclick` on the whole session state: it only ever mutates
tiles (via `SingleImage.update`); `self.result` and the file are untouched. -/
def onclick (label_options : List String) (now : String) (e : Event)
    (s : SessionState) : SessionState :=
  { s with images := onclickImages label_options now e s.images }

/-- `self.result.loc[i.path] = [i.label, i.timestamp]`: update the row with
this key in place, or append a new row at the end. -/
def setLoc (rows : List Row) (path label ts : String) : List Row :=
  if rows.any (fun r => r.filename == path) then
    rows.map (fun r => if r.filename == path then ⟨path, label, ts⟩ else r)
  else
    rows ++ [⟨path, label, ts⟩]

/-- The flush loop of `labelling_grid`: `for i in self.images:
self.result.loc[i.path] = [i.label, i.timestamp]`. -/
def flushImages (images : List SingleImage) (rows : List Row) : List Row :=
  images.foldl (fun acc i => setLoc acc i.path i.label i.timestamp) rows

/-- `ClickLabel.labelling_grid` (`num = rows * columns`): if a previous grid
exists, flush its tiles into the result table, save the table to disk as a
full overwrite, and rotate the first `num` paths to the end; then build the
new page of tiles from the front of the path sequence. -/
def labelling_grid (num : Nat) (now : String) (s : SessionState) : SessionState :=
  let s1 : SessionState :=
    if s.images.length > 0 then
      let res : DF := { s.result with rows := flushImages s.images s.result.rows }
      { result := res,
        disk := some (toCSV res),
        image_paths := s.image_paths.drop num ++ s.image_paths.take num,
        images := s.images }
    else s
  { s1 with
    images := (s1.image_paths.take num).enum.map (fun p => mkSingleImage s1.result now p.1 p.2) }

/-- A concrete two-tile session used to instantiate the page-turn theorem:
the grid shows `x` (relabelled to the first label) and `y`, path `x`
already has an entry in the table, and one more path `z` is waiting. -/
def pageTurnState : SessionState :=
  ⟨⟨"filename", ["label", "timestamp"], [⟨"x", "Old", "t0"⟩]⟩,
   none,
   ["x", "y", "z"],
   [⟨"x", "Cat meme", "t1", 0⟩, ⟨"y", "Dog meme", "t2", 1⟩]⟩

/-! ### Constructor argument validation (`ClickLabel.__init__`) -/

/-- A Python value of one of the shapes the constructor asserts about. -/
inductive PyVal where
  | vstr (s : String)
  | vint (n : Int)
  | vlist (l : List PyVal)

def isStr : PyVal → Bool
  | .vstr _ => true
  | _ => false

def isInt : PyVal → Bool
  | .vint _ => true
  | _ => false

/-- `isinstance(v, Iterable)`: Python strings and lists are iterable,
integers are not. -/
def isIterable : PyVal → Bool
  | .vint _ => false
  | _ => true

/-- `len(v)` (`none` models the TypeError raised on an int). -/
def pyLen : PyVal → Option Nat
  | .vstr s => some s.length
  | .vlist l => some l.length
  | .vint _ => none

/-- `type(v[i]) == str`: indexing a Python string yields a one-character
string, indexing a list yields its element. -/
def itemIsStr : PyVal → Nat → Bool
  | .vstr s, i => decide (i < s.length)
  | .vlist l, i =>
    match l.get? i with
    | some v => isStr v
    | none => false
  | .vint _, _ => false

/-- The checks `__init__` runs on `label_options` and on `color_options`. -/
def checkTwo (v : PyVal) : Bool :=
  isIterable v && pyLen v == some 2 && itemIsStr v 0 && itemIsStr v 1

/-- All assertions of `ClickLabel.__init__`; construction succeeds exactly
when this is `true` (a `false` conjunct raises at construction time). -/
def checkInit (data_folder result_path label_options color_options rows columns fontsize :
    PyVal) : Bool :=
  isStr data_folder && isStr result_path && checkTwo label_options && checkTwo color_options
    && isInt rows && isInt columns && isInt fontsize

/-- Spec-side characterization of a value passing `checkTwo`: a list of
exactly two strings, or a two-character string. -/
def TwoStrs (v : PyVal) : Prop :=
  (∃ a b, v = .vlist [.vstr a, .vstr b]) ∨ (∃ s, v = .vstr s ∧ s.length = 2)

/-! ### Theorems -/

/-- C7: when no file exists at the result path, construction succeeds and
the loaded result table is empty, with index `filename` and the value
columns `label` and `timestamp`. -/
theorem C7_no_file_empty_table :
    result_table none = Except.ok ⟨"filename", ["label", "timestamp"], []⟩ := rfl

/-- C8: the click handler mutates only the tiles; the in-memory result
table and the persisted result file are left unchanged by every click. -/
theorem C8_click_frame (label_options : List String) (now : String) (e : Event)
    (s : SessionState) :
    (onclick label_options now e s).result = s.result ∧
      (onclick label_options now e s).disk = s.disk :=
  ⟨rfl, rfl⟩

/-- C9: the first `labelling_grid` call after construction (no previous
page, `self.images == []`) writes nothing to the result table, saves
nothing to disk, and does not rotate the path sequence. -/
theorem C9_first_render_no_flush (num : Nat) (now : String) (s : SessionState)
    (h : s.images = []) :
    (labelling_grid num now s).result = s.result ∧
      (labelling_grid num now s).disk = s.disk ∧
      (labelling_grid num now s).image_paths = s.image_paths := by
  simp [labelling_grid, h]

theorem C9_first_render_no_flush_witness :
    (SessionState.mk ⟨"filename", ["label", "timestamp"], [⟨"data/a.png", "Cat meme", "t"⟩]⟩
        (some ⟨["filename", "label", "timestamp"], [["data/a.png", "Cat meme", "t"]]⟩)
        ["data/a.png", "data/b.png"] []).images = [] ∧
      ((labelling_grid 8 "2021-01-01 00:00:00"
          (SessionState.mk ⟨"filename", ["label", "timestamp"], [⟨"data/a.png", "Cat meme", "t"⟩]⟩
            (some ⟨["filename", "label", "timestamp"], [["data/a.png", "Cat meme", "t"]]⟩)
            ["data/a.png", "data/b.png"] [])).result =
          ⟨"filename", ["label", "timestamp"], [⟨"data/a.png", "Cat meme", "t"⟩]⟩ ∧
        (labelling_grid 8 "2021-01-01 00:00:00"
            (SessionState.mk ⟨"filename", ["label", "timestamp"], [⟨"data/a.png", "Cat meme", "t"⟩]⟩
              (some ⟨["filename", "label", "timestamp"], [["data/a.png", "Cat meme", "t"]]⟩)
              ["data/a.png", "data/b.png"] [])).disk =
          some ⟨["filename", "label", "timestamp"], [["data/a.png", "Cat meme", "t"]]⟩ ∧
        (labelling_grid 8 "2021-01-01 00:00:00"
            (SessionState.mk ⟨"filename", ["label", "timestamp"], [⟨"data/a.png", "Cat meme", "t"⟩]⟩
              (some ⟨["filename", "label", "timestamp"], [["data/a.png", "Cat meme", "t"]]⟩)
              ["data/a.png", "data/b.png"] [])).image_paths =
          ["data/a.png", "data/b.png"]) :=
  ⟨rfl, C9_first_render_no_flush 8 "2021-01-01 00:00:00" _ rfl⟩

/-- C10: every `labelling_grid` call permutes the path sequence (the
page-turn rotation neither adds, duplicates, nor drops a path). -/
theorem C10_rotation_perm (num : Nat) (now : String) (s : SessionState) :
    List.Perm (labelling_grid num now s).image_paths s.image_paths := by
  unfold labelling_grid
  by_cases h : s.images.length > 0
  · simp only [h, if_pos]
    exact List.perm_append_comm.trans (by rw [List.take_append_drop])
  · simp [h]

/-- C5: a result file that exists but lacks one of the columns `filename`,
`label`, `timestamp` makes construction fail with the descriptive
configuration error; no table is returned. -/
theorem C5_malformed_table_error (csv : RawCSV)
    (h : "filename" ∉ csv.header ∨ "label" ∉ csv.header ∨ "timestamp" ∉ csv.header) :
    result_table (some csv) = Except.error resultTableErrMsg := by
  have hc : ∀ (x : String) (l : List String), x ∉ l → l.contains x = false := by
    intro x l hx
    rw [← Bool.not_eq_true]
    intro hcon
    exact hx (List.elem_iff.mp hcon)
  have hfalse : (csv.header.contains "filename" && csv.header.contains "label"
      && csv.header.contains "timestamp") = false := by
    rcases h with h | h | h <;> simp [hc _ _ h] <;> tauto
  simp only [result_table, hfalse]
  simp

theorem C5_malformed_table_error_witness :
    ("filename" ∉ (["filename", "label"] : List String) ∨
        "label" ∉ (["filename", "label"] : List String) ∨
        "timestamp" ∉ (["filename", "label"] : List String)) ∧
      result_table (some ⟨["filename", "label"], [["data/a.png", "Cat meme"]]⟩) =
        Except.error resultTableErrMsg :=
  ⟨Or.inr (Or.inr (by decide)),
   C5_malformed_table_error ⟨["filename", "label"], [["data/a.png", "Cat meme"]]⟩
     (Or.inr (Or.inr (by decide)))⟩

/-- C1: on a recognized button (left = 1 bound to the first label, right =
3 bound to the second), every tile whose display region the click landed in
gets label `"None"` if the bound label equals its current label and the
bound label otherwise, with its timestamp set to the current time; an
unrecognized button, or a click outside every tile's region, changes no
tile. -/
theorem C1_onclick_toggle (l0 l1 now : String) (e : Event) (images : List SingleImage) :
    ((e.button = 1 ∨ e.button = 3) →
      ∀ i : Nat,
        (onclickImages [l0, l1] now e images)[i]? =
          (images[i]?).map (fun img =>
            if e.inaxes = some img.ax then
              { img with
                label := if (if e.button = 1 then l0 else l1) = img.label then "None"
                         else (if e.button = 1 then l0 else l1),
                timestamp := now }
            else img)) ∧
    (¬(e.button = 1 ∨ e.button = 3) → onclickImages [l0, l1] now e images = images) ∧
    ((∀ t ∈ images, e.inaxes ≠ some t.ax) → onclickImages [l0, l1] now e images = images) := by
  refine ⟨?_, ?_, ?_⟩
  · intro hb i
    have hbound : mapLookup (click_map [l0, l1]) e.button =
        some (if e.button = 1 then l0 else l1) := by
      rcases hb with hb | hb <;> simp [mapLookup, click_map, hb, List.find?]
    simp only [onclickImages, hbound, List.getElem?_map]
    cases h : images[i]? with
    | none => rfl
    | some img =>
      simp only [Option.map]
      by_cases hax : e.inaxes = some img.ax
      · simp [hax, SingleImage.update]
      · simp [hax]
  · intro hb
    have hb1 : (1 == e.button) = false :=
      beq_eq_false_iff_ne.mpr (Ne.symm (fun h => hb (Or.inl h)))
    have hb3 : (3 == e.button) = false :=
      beq_eq_false_iff_ne.mpr (Ne.symm (fun h => hb (Or.inr h)))
    have hnone : mapLookup (click_map [l0, l1]) e.button = none := by
      simp [mapLookup, click_map, List.find?, hb1, hb3]
    simp [onclickImages, hnone]
  · intro hax
    cases hm : mapLookup (click_map [l0, l1]) e.button with
    | none => simp [onclickImages, hm]
    | some bound =>
      simp only [onclickImages, hm]
      conv_rhs => rw [← List.map_id images]
      exact List.map_congr_left (fun img hi => by simp [hax img hi])

theorem C1_onclick_toggle_witness :
    ((1 = 1 ∨ 1 = 3) ∧
      (onclickImages ["Cat meme", "Dog meme"] "2021-01-01 00:00:00" ⟨1, some 0⟩
          [⟨"data/a.png", "Cat meme", "2020-05-05 10:00:00", 0⟩])[0]? =
        some ⟨"data/a.png", "None", "2021-01-01 00:00:00", 0⟩) ∧
      onclickImages ["Cat meme", "Dog meme"] "2021-01-01 00:00:00" ⟨2, some 0⟩
          [⟨"data/a.png", "Cat meme", "2020-05-05 10:00:00", 0⟩] =
        [⟨"data/a.png", "Cat meme", "2020-05-05 10:00:00", 0⟩] := by
  constructor
  · refine ⟨Or.inl rfl, ?_⟩
    have h := (C1_onclick_toggle "Cat meme" "Dog meme" "2021-01-01 00:00:00" ⟨1, some 0⟩
        [⟨"data/a.png", "Cat meme", "2020-05-05 10:00:00", 0⟩]).1 (Or.inl rfl) 0
    rw [h]
    decide
  · exact (C1_onclick_toggle "Cat meme" "Dog meme" "2021-01-01 00:00:00" ⟨2, some 0⟩
      [⟨"data/a.png", "Cat meme", "2020-05-05 10:00:00", 0⟩]).2.1 (by decide)

theorem rowLe_total (a b : Row) : (rowLe a b || rowLe b a) = true := by
  have h : strLe a.timestamp b.timestamp = true ∨ strLe b.timestamp a.timestamp = true := by
    simpa using strLe_total a.timestamp b.timestamp
  rcases h with h' | h' <;>
    cases hda : rowDone a <;> cases hdb : rowDone b <;>
      simp [rowLe, hda, hdb, h']

theorem rowLe_trans {a b c : Row} (h1 : rowLe a b = true) (h2 : rowLe b c = true) :
    rowLe a c = true := by
  cases hda : rowDone a <;> cases hdb : rowDone b <;> cases hdc : rowDone c <;>
    simp [rowLe, hda, hdb, hdc] at h1 h2 ⊢ <;>
    exact strLe_trans h1 h2

theorem parse_serializeRow (r : Row) :
    parseRow ["filename", "label", "timestamp"] (serializeRow r) = r := rfl

theorem map_parse_serializeRow (rs : List Row) :
    List.map (parseRow ["filename", "label", "timestamp"] ∘ serializeRow) rs = rs := by
  induction rs with
  | nil => rfl
  | cons r rs ih => simp [ih, Function.comp, parse_serializeRow]

/-- C6: loading a well-formed saved table (one produced by `to_csv`:
columns exactly filename, label, timestamp) and re-saving it unmodified
keeps the same multiset of records; the returned rows are ordered by
(done ascending, timestamp ascending) where done = (label ≠ "None"), and
neither the returned table's schema nor the re-saved file contains the
derived done column. -/
theorem C6_save_load_roundtrip (rs : List Row) :
    ∃ df : DF,
      result_table (some (toCSV ⟨"filename", ["label", "timestamp"], rs⟩)) = Except.ok df ∧
      List.Perm df.rows rs ∧
      List.Pairwise (fun a b => rowLe a b = true) df.rows ∧
      df.cols = ["label", "timestamp"] ∧
      (toCSV df).header = ["filename", "label", "timestamp"] ∧
      List.Perm (toCSV df).rows (toCSV ⟨"filename", ["label", "timestamp"], rs⟩).rows := by
  refine ⟨⟨"filename", ["label", "timestamp"], sortRows rs⟩, ?_, ?_, ?_, rfl, rfl, ?_⟩
  · simp [result_table, toCSV, sortRows, map_parse_serializeRow rs]
  · exact sortLe_perm rowLe rs
  · exact sortLe_pairwise rowLe_total (fun a b c => rowLe_trans) rs
  · exact List.Perm.map serializeRow (sortLe_perm rowLe rs)

/-! Lemmas about `setLoc` and the flush loop of `labelling_grid`. -/

theorem find?_map_replace_self (rows : List Row) (path label ts : String)
    (hany : rows.any (fun r => r.filename == path) = true) :
    (rows.map (fun r => if r.filename == path then (⟨path, label, ts⟩ : Row) else r)).find?
        (fun r => r.filename == path) = some ⟨path, label, ts⟩ := by
  induction rows with
  | nil => simp at hany
  | cons r rs ih =>
    rw [List.map_cons]
    by_cases hr : r.filename = path
    · rw [if_pos (beq_iff_eq.mpr hr), List.find?_cons_of_pos _ (by simp)]
    · rw [if_neg (by simp [hr]), List.find?_cons_of_neg _ (by simp [hr])]
      apply ih
      simpa [hr] using hany

theorem find?_map_replace_ne (rows : List Row) (path q label ts : String) (h : path ≠ q) :
    (rows.map (fun r => if r.filename == q then (⟨q, label, ts⟩ : Row) else r)).find?
        (fun r => r.filename == path) = rows.find? (fun r => r.filename == path) := by
  induction rows with
  | nil => rfl
  | cons r rs ih =>
    rw [List.map_cons]
    by_cases hr : r.filename = q
    · rw [if_pos (beq_iff_eq.mpr hr),
        List.find?_cons_of_neg _ (by simp [Ne.symm h]),
        List.find?_cons_of_neg _ (by simp [hr, Ne.symm h]), ih]
    · rw [if_neg (by simp [hr])]
      by_cases hp : r.filename = path
      · rw [List.find?_cons_of_pos _ (by simp [hp]), List.find?_cons_of_pos _ (by simp [hp])]
      · rw [List.find?_cons_of_neg _ (by simp [hp]), List.find?_cons_of_neg _ (by simp [hp]), ih]

theorem find?_setLoc_self (rows : List Row) (path label ts : String) :
    (setLoc rows path label ts).find? (fun r => r.filename == path) =
      some ⟨path, label, ts⟩ := by
  unfold setLoc
  split
  · exact find?_map_replace_self rows path label ts (by assumption)
  · rename_i hany
    have hnone : rows.find? (fun r => r.filename == path) = none := by
      rw [List.find?_eq_none]
      intro r hr hbeq
      exact hany (List.any_eq_true.mpr ⟨r, hr, hbeq⟩)
    rw [List.find?_append, hnone]
    simp [List.find?]

theorem find?_setLoc_ne (rows : List Row) (path q label ts : String) (h : path ≠ q) :
    (setLoc rows q label ts).find? (fun r => r.filename == path) =
      rows.find? (fun r => r.filename == path) := by
  unfold setLoc
  split
  · exact find?_map_replace_ne rows path q label ts h
  · rw [List.find?_append]
    have h1 : (List.find? (fun r => r.filename == path) [(⟨q, label, ts⟩ : Row)]) = none := by
      simp [List.find?, beq_eq_false_iff_ne.mpr (Ne.symm h)]
    rw [h1, Option.or_none]

theorem find?_flushImages_not_mem (images : List SingleImage) (rows : List Row)
    (path : String) (h : path ∉ images.map (fun t => t.path)) :
    (flushImages images rows).find? (fun r => r.filename == path) =
      rows.find? (fun r => r.filename == path) := by
  induction images generalizing rows with
  | nil => rfl
  | cons i is ih =>
    simp only [List.map_cons, List.mem_cons, not_or] at h
    rw [show flushImages (i :: is) rows = flushImages is (setLoc rows i.path i.label i.timestamp)
        from rfl,
      ih _ h.2, find?_setLoc_ne rows path i.path i.label i.timestamp h.1]

theorem find?_flushImages_mem (images : List SingleImage) (rows : List Row)
    (hnd : (images.map (fun t => t.path)).Nodup) (t : SingleImage) (ht : t ∈ images) :
    (flushImages images rows).find? (fun r => r.filename == t.path) =
      some ⟨t.path, t.label, t.timestamp⟩ := by
  induction images generalizing rows with
  | nil => cases ht
  | cons i is ih =>
    simp only [List.map_cons, List.nodup_cons] at hnd
    rcases List.mem_cons.mp ht with rfl | ht
    · rw [show flushImages (t :: is) rows = flushImages is (setLoc rows t.path t.label t.timestamp)
          from rfl,
        find?_flushImages_not_mem is _ t.path hnd.1]
      exact find?_setLoc_self rows t.path t.label t.timestamp
    · exact ih _ hnd.2 ht

/-- C2: a `labelling_grid` call made while a previous page is showing
first writes every tile's (label, timestamp) into the result table keyed
by its path (overwriting any prior entry for that key and touching no
other key), then saves the entire updated table to the result path as a
full overwrite, and rotates the first `num = rows * columns` paths of the
session sequence to its end. -/
theorem C2_page_turn (num : Nat) (now : String) (s : SessionState)
    (hne : s.images ≠ [])
    (hnd : (s.images.map (fun t => t.path)).Nodup) :
    (∀ t ∈ s.images,
        (labelling_grid num now s).result.rows.find? (fun r => r.filename == t.path) =
          some ⟨t.path, t.label, t.timestamp⟩) ∧
      (∀ p, p ∉ s.images.map (fun t => t.path) →
        (labelling_grid num now s).result.rows.find? (fun r => r.filename == p) =
          s.result.rows.find? (fun r => r.filename == p)) ∧
      (labelling_grid num now s).disk = some (toCSV (labelling_grid num now s).result) ∧
      (labelling_grid num now s).image_paths =
        s.image_paths.drop num ++ s.image_paths.take num := by
  have hlen : s.images.length > 0 := List.length_pos.mpr hne
  refine ⟨?_, ?_, ?_, ?_⟩
  · intro t ht
    simp only [labelling_grid, hlen, if_pos]
    exact find?_flushImages_mem s.images s.result.rows hnd t ht
  · intro p hp
    simp only [labelling_grid, hlen, if_pos]
    exact find?_flushImages_not_mem s.images s.result.rows p hp
  · simp only [labelling_grid, hlen, if_pos]
  · simp only [labelling_grid, hlen, if_pos]

theorem C2_page_turn_witness :
    (pageTurnState.images ≠ [] ∧
        (pageTurnState.images.map (fun t => t.path)).Nodup) ∧
      (labelling_grid 2 "2021-01-01 00:00:00" pageTurnState).result.rows.find?
          (fun r => r.filename == "x") = some ⟨"x", "Cat meme", "t1"⟩ ∧
      (labelling_grid 2 "2021-01-01 00:00:00" pageTurnState).disk =
        some (toCSV (labelling_grid 2 "2021-01-01 00:00:00" pageTurnState).result) ∧
      (labelling_grid 2 "2021-01-01 00:00:00" pageTurnState).image_paths = ["z", "x", "y"] := by
  have h := C2_page_turn 2 "2021-01-01 00:00:00" pageTurnState (by decide) (by decide)
  refine ⟨⟨by decide, by decide⟩, ?_, h.2.2.1, ?_⟩
  · exact h.1 ⟨"x", "Cat meme", "t1", 0⟩ (by decide)
  · rw [h.2.2.2]
    rfl

/-! Lemmas and theorems for the image enumerator (`get_image_paths`). -/

/-- C4 counterexample: a result table may hold a key (here `d/zzz.png`)
that names no entry of the data directory; `get_image_paths` still emits
it, so the returned list is not a partition of the directory's entries
(the only prefixed directory entry is `d/a.png`). -/
theorem C4_counterexample :
    get_image_paths ⟨"filename", ["label", "timestamp"], [⟨"d/zzz.png", "Cat meme", "t"⟩]⟩
        "d" ["a.png"] = ["d/a.png", "d/zzz.png"] ∧
      "d/zzz.png" ∈ get_image_paths ⟨"filename", ["label", "timestamp"],
          [⟨"d/zzz.png", "Cat meme", "t"⟩]⟩ "d" ["a.png"] ∧
      "d/zzz.png" ∉ ["a.png"].map (fun f => normalizeDir "d" ++ f) := by
  decide

/-- C4 (amended): `get_image_paths` returns the directory's prefixed
entries that are not keys of the result table, sorted lexicographically,
followed by all of the table's keys in table order; when every table key
is among the directory's prefixed entries (and there are no duplicates),
this is exactly a partition of the directory's entries. -/
theorem C4_enumeration_order (result : DF) (path : String) (listing : List String)
    (hk : (tableKeys result).Nodup)
    (hl : (listing.map (fun f => normalizeDir path ++ f)).Nodup)
    (hsub : ∀ k ∈ tableKeys result, k ∈ listing.map (fun f => normalizeDir path ++ f)) :
    List.Perm (get_image_paths result path listing)
        (listing.map (fun f => normalizeDir path ++ f)) ∧
      ∃ u, get_image_paths result path listing = u ++ tableKeys result ∧
        List.Pairwise (fun a b => strLe a b = true) u ∧
        ∀ x, x ∈ u ↔
          x ∈ listing.map (fun f => normalizeDir path ++ f) ∧ x ∉ tableKeys result := by
  have hdef : get_image_paths result path listing =
      sortStrs ((listing.map (fun f => normalizeDir path ++ f)).filter
          (fun p => !(tableKeys result).contains p)) ++ tableKeys result := rfl
  constructor
  · rw [hdef]
    have h1 := sortLe_perm strLe ((listing.map (fun f => normalizeDir path ++ f)).filter
        (fun p => !(tableKeys result).contains p))
    have h2 : List.Perm (tableKeys result)
        ((listing.map (fun f => normalizeDir path ++ f)).filter
          (fun p => (tableKeys result).contains p)) := by
      rw [List.perm_ext_iff_of_nodup hk (hl.filter _)]
      intro a
      simp only [List.mem_filter]
      constructor
      · intro ha
        exact ⟨hsub a ha, List.elem_iff.mpr ha⟩
      · rintro ⟨-, hc⟩
        exact List.elem_iff.mp hc
    refine (List.Perm.append h1 h2).trans ?_
    refine List.Perm.trans List.perm_append_comm ?_
    exact List.filter_append_perm _ _
  · refine ⟨sortStrs ((listing.map (fun f => normalizeDir path ++ f)).filter
        (fun p => !(tableKeys result).contains p)), hdef, ?_, ?_⟩
    · exact sortLe_pairwise strLe_total (fun a b c h1 h2 => strLe_trans h1 h2) _
    · intro x
      simp only [sortStrs]
      rw [(sortLe_perm _ _).mem_iff]
      simp only [List.mem_filter, Bool.not_eq_true']
      constructor
      · rintro ⟨hx, hc⟩
        refine ⟨hx, fun hmem => ?_⟩
        have hc2 : (tableKeys result).contains x = true := List.elem_iff.mpr hmem
        rw [hc2] at hc
        cases hc
      · rintro ⟨hx, hnm⟩
        refine ⟨hx, ?_⟩
        rw [← Bool.not_eq_true]
        intro hc
        exact hnm (List.elem_iff.mp hc)

theorem C4_enumeration_order_witness :
    ((tableKeys ⟨"filename", ["label", "timestamp"], [⟨"d/a.png", "Cat meme", "t"⟩]⟩).Nodup ∧
        ((["b.png", "a.png"].map (fun f => normalizeDir "d" ++ f)).Nodup) ∧
        (∀ k ∈ tableKeys ⟨"filename", ["label", "timestamp"], [⟨"d/a.png", "Cat meme", "t"⟩]⟩,
          k ∈ ["b.png", "a.png"].map (fun f => normalizeDir "d" ++ f))) ∧
      List.Perm
        (get_image_paths ⟨"filename", ["label", "timestamp"], [⟨"d/a.png", "Cat meme", "t"⟩]⟩
          "d" ["b.png", "a.png"])
        (["b.png", "a.png"].map (fun f => normalizeDir "d" ++ f)) :=
  ⟨⟨by decide, by decide, by decide⟩,
   (C4_enumeration_order ⟨"filename", ["label", "timestamp"], [⟨"d/a.png", "Cat meme", "t"⟩]⟩
     "d" ["b.png", "a.png"] (by decide) (by decide) (by decide)).1⟩

/-! Theorems for constructor validation. -/

theorem isStr_iff (v : PyVal) : isStr v = true ↔ ∃ s, v = .vstr s := by
  cases v <;> simp [isStr]

theorem isInt_iff (v : PyVal) : isInt v = true ↔ ∃ n, v = .vint n := by
  cases v <;> simp [isInt]

theorem checkTwo_iff (v : PyVal) : checkTwo v = true ↔ TwoStrs v := by
  cases v with
  | vint n => simp [checkTwo, isIterable, TwoStrs]
  | vstr s =>
    simp only [checkTwo, isIterable, pyLen, itemIsStr, Bool.true_and, Bool.and_eq_true,
      beq_iff_eq, Option.some.injEq, decide_eq_true_eq, TwoStrs]
    constructor
    · rintro ⟨⟨hlen, -⟩, -⟩
      exact Or.inr ⟨s, rfl, hlen⟩
    · rintro (⟨a, b, h⟩ | ⟨t, ht, hlen⟩)
      · cases h
      · cases ht
        exact ⟨⟨hlen, by omega⟩, by omega⟩
  | vlist l =>
    cases l with
    | nil => simp [checkTwo, isIterable, pyLen, TwoStrs]
    | cons a l1 =>
      cases l1 with
      | nil => simp [checkTwo, isIterable, pyLen, TwoStrs]
      | cons b l2 =>
        cases l2 with
        | cons c l3 => simp [checkTwo, isIterable, pyLen, TwoStrs]
        | nil =>
          constructor
          · intro h
            cases a with
            | vstr x =>
              cases b with
              | vstr y => exact Or.inl ⟨x, y, rfl⟩
              | vint n => simp [checkTwo, itemIsStr, isStr, List.get?] at h
              | vlist m => simp [checkTwo, itemIsStr, isStr, List.get?] at h
            | vint n => simp [checkTwo, itemIsStr, isStr, List.get?] at h
            | vlist m => simp [checkTwo, itemIsStr, isStr, List.get?] at h
          · intro h
            rcases h with ⟨x, y, hxy⟩ | ⟨s, hs, -⟩
            · cases hxy
              rfl
            · cases hs

/-- C3 counterexample: construction succeeds with `rows = 0` (and would
equally succeed with any non-positive int, or with color strings that do
not resolve to RGB): the constructor checks only `isinstance(v, int)`,
never positivity, and only `type(color) == str`, never resolvability. -/
theorem C3_counterexample :
    checkInit (.vstr "data/") (.vstr "labels/df.csv")
        (.vlist [.vstr "Cat meme", .vstr "Dog meme"]) (.vlist [.vstr "red", .vstr "blue"])
        (.vint 0) (.vint 4) (.vint 10) = true ∧ ¬(0 < (0 : Int)) :=
  ⟨rfl, by decide⟩

/-- C3 (amended): construction succeeds iff the data directory and result
path are strings, the label and the color options are length-2 iterables
whose first two items are strings (a list of two strings, or a
two-character string), and rows, columns and fontsize are ints.
Positivity of the three ints and RGB-resolvability of the two color
strings are not validated at construction. -/
theorem C3_construction_iff (d r lo co rw cl fs : PyVal) :
    checkInit d r lo co rw cl fs = true ↔
      (∃ s, d = .vstr s) ∧ (∃ s, r = .vstr s) ∧ TwoStrs lo ∧ TwoStrs co ∧
        (∃ n, rw = .vint n) ∧ (∃ n, cl = .vint n) ∧ (∃ n, fs = .vint n) := by
  simp only [checkInit, Bool.and_eq_true, isStr_iff, isInt_iff, checkTwo_iff]
  tauto

end Click2Label
